import Mathlib

/- Verification of the buttercup submission-inspection CLI
   (common/src/buttercup/common/util_cli.py): a shallow embedding of
   truncate_stacktraces, the read_submissions reporting loop and the
   extract_povs export loop, together with theorems about their counting,
   filtering and error-skipping behaviour. -/

/-- Result verdict attached to each crash and patch entry
    (protobuf enum SubmissionResult; only the values the spec names). -/
inductive SubmissionResult where
  | NONE
  | PASSED
  | FAILED
  deriving Repr, DecidableEq

/-- Boolean test for the PASSED verdict, as compared in the source with
    c.result == SubmissionResult.PASSED. -/
def SubmissionResult.isPassed : SubmissionResult → Bool
  | .PASSED => true
  | _ => false

/-- Build target of a crash (msg_pb2: task_id, sanitizer, engine). -/
structure Target where
  task_id : String
  sanitizer : String
  engine : String
  deriving Repr, DecidableEq

/-- Crash record (msg_pb2 Crash): dedup token, stacktrace, input path,
    harness name and target. -/
structure Crash where
  crash_token : String
  stacktrace : String
  crash_input_path : String
  harness_name : String
  target : Target
  deriving Repr, DecidableEq

/-- Crash plus the tracer stacktrace (the inner crash_with_id.crash of the
    source, whose own .crash is the raw Crash). -/
structure TracedCrash where
  crash : Crash
  tracer_stacktrace : String
  deriving Repr, DecidableEq

/-- CrashWithId: a traced crash with its competition PoV id and verdict. -/
structure CrashWithId where
  crash : TracedCrash
  competition_pov_id : String
  result : SubmissionResult
  deriving Repr, DecidableEq

/-- PatchEntry: ids, diff text (empty diff = placeholder reservation) and
    verdict. -/
structure PatchEntry where
  internal_patch_id : String
  competition_patch_id : String
  patch : String
  result : SubmissionResult
  deriving Repr, DecidableEq

/-- Bundle grouping record; opaque to the CLI, only its presence counts. -/
structure Bundle where
  bundle_id : String
  deriving Repr, DecidableEq

/-- SubmissionEntry: the central aggregate stored per discovered
    vulnerability. -/
structure SubmissionEntry where
  crashes : List CrashWithId
  patches : List PatchEntry
  bundles : List Bundle
  patch_idx : Nat
  stop : Bool
  deriving Repr, DecidableEq

/-- Task metadata resolved through the task registry (named TaskInfo here
    because Task is taken by the Lean core library). -/
structure TaskInfo where
  task_id : String
  project_name : String
  task_type : String
  deriving Repr, DecidableEq

/-- The task registry as read by the CLI: a pure lookup from task id to
    task metadata, absence being a normal result. -/
def TaskLookup : Type := String → Option TaskInfo

/-- Truncation of one string field exactly as in truncate_stacktraces:
    a non-empty string longer than maxLength is cut to its first
    maxLength characters with the marker appended, anything else is
    returned unchanged. -/
def truncStr (maxLength : Nat) (s : String) : String :=
  if s ≠ "" ∧ maxLength < s.length then s.take maxLength ++ "... (truncated)" else s

/-- Per-crash action of truncate_stacktraces: the stacktrace, the
    crash_token and the tracer_stacktrace are truncated, every other field
    is copied. -/
def truncateCrashWithId (maxLength : Nat) (cw : CrashWithId) : CrashWithId :=
  { cw with crash :=
      { cw.crash with
        crash := { cw.crash.crash with
          stacktrace := truncStr maxLength cw.crash.crash.stacktrace,
          crash_token := truncStr maxLength cw.crash.crash.crash_token },
        tracer_stacktrace := truncStr maxLength cw.crash.tracer_stacktrace } }

/-- truncate_stacktraces: build a copy of the submission (the source
    serializes to text and reparses, a pure deep copy) and truncate the
    display fields of every crash; patches, bundles, patch_idx and stop
    are copied untouched. -/
def truncate_stacktraces (submission : SubmissionEntry) (maxLength : Nat := 80) :
    SubmissionEntry :=
  { submission with crashes := submission.crashes.map (truncateCrashWithId maxLength) }

/-- Options of the read-submissions subcommand (ReadSubmissionsSettings):
    optional task filter, verbose display, and filtering of stopped
    entries. -/
structure ReadSubmissionsSettings where
  task_id : String := ""
  verbose : Bool := false
  filter_stop : Bool := false
  deriving Repr, DecidableEq

/-- Per-task aggregate built by the read-submissions loop (TaskResult). -/
structure TaskResult where
  task_id : String
  project_name : String
  mode : String
  n_vulnerabilities : Nat := 0
  n_patches : Nat := 0
  n_bundles : Nat := 0
  patched_vulnerabilities : List String := []
  non_patched_vulnerabilities : List String := []
  deriving Repr, DecidableEq

/-- State threaded through the read-submissions loop: the per-task results
    dictionary (an insertion-ordered association list, as a Python dict),
    the indices of submissions printed at the end of the loop body, and
    the indices logged by the per-record exception handler. -/
structure ReadState where
  result : List (String × TaskResult)
  printed : List Nat
  errors : List Nat
  deriving Repr, DecidableEq

/-- Dictionary lookup in the per-task results list. -/
def lookupTask (rs : List (String × TaskResult)) (tid : String) : Option TaskResult :=
  (rs.find? (fun p => p.1 = tid)).map (fun p => p.2)

/-- In-place update of one task's aggregate, as a mutation of the Python
    dict value. -/
def updateTask (rs : List (String × TaskResult)) (tid : String)
    (f : TaskResult → TaskResult) : List (String × TaskResult) :=
  rs.map (fun p => if p.1 = tid then (p.1, f p.2) else p)

/-- Fresh TaskResult created when a task id first appears in the loop. -/
def freshTaskResult (tid : String) (task : TaskInfo) : TaskResult :=
  { task_id := tid, project_name := task.project_name, mode := task.task_type }

/-- The display view the loop works on: the decoded submission itself in
    verbose mode, its truncated copy otherwise. -/
def viewOf (cmd : ReadSubmissionsSettings) (s : SubmissionEntry) : SubmissionEntry :=
  if cmd.verbose then s else truncate_stacktraces s

/-- Tally section of the read-submissions loop body (the code after all
    skip checks): ensure the task has an aggregate, bump the
    vulnerability count when some crash PASSED, bump the patch count when
    some patch PASSED; when a PASSED patch is found without a PASSED
    crash the source asserts c is not None, so after the patch-count
    bump the record falls into the exception handler (logged, not
    printed, bundles not counted). -/
def tallyEntry (st : ReadState) (i : Nat) (task_id : String) (task : TaskInfo)
    (sub : SubmissionEntry) : ReadState :=
  let result0 :=
    if (lookupTask st.result task_id).isSome then st.result
    else st.result ++ [(task_id, freshTaskResult task_id task)]
  let c := sub.crashes.find? (fun cw => cw.result.isPassed)
  let result1 :=
    if c.isSome then
      updateTask result0 task_id
        (fun tr => { tr with n_vulnerabilities := tr.n_vulnerabilities + 1 })
    else result0
  let p := sub.patches.find? (fun pe => pe.result.isPassed)
  match p, c with
  | some _, some cw =>
    let result2 := updateTask result1 task_id
      (fun tr => { tr with
        n_patches := tr.n_patches + 1,
        patched_vulnerabilities := tr.patched_vulnerabilities ++ [cw.competition_pov_id] })
    let result3 :=
      if sub.bundles.isEmpty then result2
      else updateTask result2 task_id (fun tr => { tr with n_bundles := tr.n_bundles + 1 })
    { result := result3, printed := st.printed ++ [i], errors := st.errors }
  | some _, none =>
    let result2 := updateTask result1 task_id
      (fun tr => { tr with n_patches := tr.n_patches + 1 })
    { result := result2, printed := st.printed, errors := st.errors ++ [i] }
  | none, some cw =>
    let result2 := updateTask result1 task_id
      (fun tr => { tr with
        non_patched_vulnerabilities := tr.non_patched_vulnerabilities ++ [cw.competition_pov_id] })
    let result3 :=
      if sub.bundles.isEmpty then result2
      else updateTask result2 task_id (fun tr => { tr with n_bundles := tr.n_bundles + 1 })
    { result := result3, printed := st.printed ++ [i], errors := st.errors }
  | none, none =>
    let result3 :=
      if sub.bundles.isEmpty then result1
      else updateTask result1 task_id (fun tr => { tr with n_bundles := tr.n_bundles + 1 })
    { result := result3, printed := st.printed ++ [i], errors := st.errors }

/-- One iteration of the read-submissions loop over (i, raw): a record
    that fails to decode (none) falls into the exception handler; a
    decoded record is truncated unless verbose, skipped when filter_stop
    is set and the entry is stopped, sent to the exception handler when
    its crashes list is empty (crashes[0] raises), skipped when its task
    is not in the registry or does not match the task filter, and
    otherwise tallied. -/
def readStep (registry : TaskLookup) (cmd : ReadSubmissionsSettings)
    (st : ReadState) (ir : Nat × Option SubmissionEntry) : ReadState :=
  match ir.2 with
  | none => { st with errors := st.errors ++ [ir.1] }
  | some s0 =>
    let sub := viewOf cmd s0
    if cmd.filter_stop && sub.stop then st
    else
      match sub.crashes.head? with
      | none => { st with errors := st.errors ++ [ir.1] }
      | some c0 =>
        let task_id := c0.crash.crash.target.task_id
        match registry task_id with
        | none => st
        | some task =>
          if cmd.task_id ≠ "" ∧ task_id ≠ cmd.task_id then st
          else tallyEntry st ir.1 task_id task sub

/-- Enumerated left fold of readStep, mirroring the for-loop over
    enumerate(raw_submissions) starting at index n. -/
def readFoldFrom (registry : TaskLookup) (cmd : ReadSubmissionsSettings) :
    Nat → List (Option SubmissionEntry) → ReadState → ReadState
  | _, [], st => st
  | n, r :: l, st => readFoldFrom registry cmd (n + 1) l (readStep registry cmd st (n, r))

/-- The read-submissions subcommand over the decoded content of the
    stored submissions list (a stored record that fails to decode is
    represented as none). -/
def read_submissions (registry : TaskLookup) (cmd : ReadSubmissionsSettings)
    (raws : List (Option SubmissionEntry)) : ReadState :=
  readFoldFrom registry cmd 0 raws { result := [], printed := [], errors := [] }

/-- Derived view: the entry has at least one crash with result PASSED. -/
def hasPassedCrash (s : SubmissionEntry) : Bool :=
  s.crashes.any (fun cw => cw.result.isPassed)

/-- Derived view: the entry has at least one patch with result PASSED. -/
def hasPassedPatch (s : SubmissionEntry) : Bool :=
  s.patches.any (fun pe => pe.result.isPassed)

/-- Competition PoV id of the first PASSED crash of the entry (the id the
    loop appends to the patched or non-patched list). -/
def firstPassedPovId (s : SubmissionEntry) : String :=
  match s.crashes.find? (fun cw => cw.result.isPassed) with
  | some cw => cw.competition_pov_id
  | none => ""

/-- Options of the extract-povs subcommand that affect which submissions
    are extracted (the output directory, namespace and pod label are pure
    environment plumbing for kubectl and are not modelled). -/
structure ExtractPovsSettings where
  task_id : String := ""
  passed_only : Bool := false
  deriving Repr, DecidableEq

/-- Crash metadata written to crashes/crash_NNN/metadata.json. -/
structure CrashMeta where
  competition_pov_id : String
  result : SubmissionResult
  harness_name : String
  crash_token : String
  crash_input_path : String
  sanitizer : String
  engine : String
  deriving Repr, DecidableEq

/-- Files attached to one crash directory: the remote PoV path handed to
    kubectl cp, the stacktrace and tracer stacktrace files (written only
    when non-empty) and the metadata record. -/
structure CrashOutput where
  pov_remote_path : String
  stacktrace_file : Option String
  tracer_stacktrace_file : Option String
  meta : CrashMeta
  deriving Repr, DecidableEq

/-- Patch metadata written next to each extracted patch file. -/
structure PatchMeta where
  internal_patch_id : String
  competition_patch_id : String
  result : SubmissionResult
  deriving Repr, DecidableEq

/-- Vulnerability metadata written to vuln_NNN/metadata.json. -/
structure VulnMeta where
  task_id : String
  project_name : String
  num_crashes : Nat
  num_patches : Nat
  num_bundles : Nat
  patch_idx : Nat
  stopped : Bool
  deriving Repr, DecidableEq

/-- Everything extract_povs writes for one submission: the vulnerability
    directory number, the per-crash outputs, the numbered patch files
    (patch_NNN.patch contents), their metadata files and the
    vulnerability metadata. -/
structure VulnOutput where
  task_id : String
  project_name : String
  vuln_num : Nat
  crashOutputs : List CrashOutput
  patchFiles : List (Nat × String)
  patchMetas : List (Nat × PatchMeta)
  meta : VulnMeta
  deriving Repr, DecidableEq

/-- State of the extract_povs loop: the per-task vulnerability counter,
    the extracted vulnerability records in order, and the indices logged
    by the per-record exception handler. -/
structure ExtractState where
  vulnCounter : List (String × Nat)
  vulns : List VulnOutput
  errors : List Nat
  deriving Repr, DecidableEq

/-- Counter lookup with Python's dict-setdefault-to-zero behaviour. -/
def lookupCount (counter : List (String × Nat)) (tid : String) : Nat :=
  match counter.find? (fun p => p.1 = tid) with
  | some p => p.2
  | none => 0

/-- Store an updated counter value for a task id, inserting it on first
    use. -/
def setCount (counter : List (String × Nat)) (tid : String) (v : Nat) :
    List (String × Nat) :=
  if (counter.find? (fun p => p.1 = tid)).isSome then
    counter.map (fun p => if p.1 = tid then (p.1, v) else p)
  else counter ++ [(tid, v)]

/-- Per-crash extraction: the PoV path is handed to kubectl cp, the
    stacktrace and tracer stacktrace are written when non-empty, and the
    crash metadata is recorded. -/
def crashOutputOf (cw : CrashWithId) : CrashOutput :=
  { pov_remote_path := cw.crash.crash.crash_input_path,
    stacktrace_file :=
      if cw.crash.crash.stacktrace ≠ "" then some cw.crash.crash.stacktrace else none,
    tracer_stacktrace_file :=
      if cw.crash.tracer_stacktrace ≠ "" then some cw.crash.tracer_stacktrace else none,
    meta := { competition_pov_id := cw.competition_pov_id,
              result := cw.result,
              harness_name := cw.crash.crash.harness_name,
              crash_token := cw.crash.crash.crash_token,
              crash_input_path := cw.crash.crash.crash_input_path,
              sanitizer := cw.crash.crash.target.sanitizer,
              engine := cw.crash.crash.target.engine } }

/-- Patch-extraction loop of extract_povs: walk the patch entries with a
    running patch_num counter, skipping every entry whose diff text is
    empty (a placeholder tracker) and numbering the written patch files
    and metadata files with the count of non-empty patches seen so far.
    Returns (final patch_num, patch files, patch metadata files). -/
def extractPatchFiles (patches : List PatchEntry) :
    Nat × List (Nat × String) × List (Nat × PatchMeta) :=
  patches.foldl
    (fun acc pe =>
      if pe.patch = "" then acc
      else
        (acc.1 + 1,
         acc.2.1 ++ [(acc.1 + 1, pe.patch)],
         acc.2.2 ++ [(acc.1 + 1,
           { internal_patch_id := pe.internal_patch_id,
             competition_patch_id := pe.competition_patch_id,
             result := pe.result })]))
    (0, [], [])

/-- One iteration of the extract_povs loop over (i, raw): a record that
    fails to decode falls into the exception handler; a stopped
    submission is skipped; a submission with no crashes is skipped; the
    task filter and the passed_only filter may skip it; otherwise the
    task's vulnerability counter is bumped and a VulnOutput is emitted,
    with num_patches counting only non-empty patches. -/
def extractStep (registry : TaskLookup) (cmd : ExtractPovsSettings)
    (st : ExtractState) (ir : Nat × Option SubmissionEntry) : ExtractState :=
  match ir.2 with
  | none => { st with errors := st.errors ++ [ir.1] }
  | some submission =>
    if submission.stop then st
    else
      match submission.crashes.head? with
      | none => st
      | some c0 =>
        let task_id := c0.crash.crash.target.task_id
        if cmd.task_id ≠ "" ∧ task_id ≠ cmd.task_id then st
        else if cmd.passed_only && !hasPassedCrash submission then st
        else
          let project_name :=
            match registry task_id with
            | some task => task.project_name
            | none => "unknown"
          let vuln_num := lookupCount st.vulnCounter task_id + 1
          let pf := extractPatchFiles submission.patches
          { st with
            vulnCounter := setCount st.vulnCounter task_id vuln_num,
            vulns := st.vulns ++ [{
              task_id := task_id,
              project_name := project_name,
              vuln_num := vuln_num,
              crashOutputs := submission.crashes.map crashOutputOf,
              patchFiles := pf.2.1,
              patchMetas := pf.2.2,
              meta := { task_id := task_id,
                        project_name := project_name,
                        num_crashes := submission.crashes.length,
                        num_patches := pf.1,
                        num_bundles := submission.bundles.length,
                        patch_idx := submission.patch_idx,
                        stopped := submission.stop } }] }

/-- Enumerated left fold of extractStep, mirroring the for-loop over
    enumerate(raw_submissions) starting at index n. -/
def extractFoldFrom (registry : TaskLookup) (cmd : ExtractPovsSettings) :
    Nat → List (Option SubmissionEntry) → ExtractState → ExtractState
  | _, [], st => st
  | n, r :: l, st => extractFoldFrom registry cmd (n + 1) l (extractStep registry cmd st (n, r))

/-- The extract-povs subcommand over the decoded content of the stored
    submissions list. -/
def extract_povs (registry : TaskLookup) (cmd : ExtractPovsSettings)
    (raws : List (Option SubmissionEntry)) : ExtractState :=
  extractFoldFrom registry cmd 0 raws { vulnCounter := [], vulns := [], errors := [] }

theorem find?_isSome_eq_any {α : Type} (p : α → Bool) (l : List α) :
    (l.find? p).isSome = l.any p := by
  induction l with
  | nil => rfl
  | cons a l ih =>
    cases h : p a <;> simp [List.find?, List.any, h, ih]

theorem hasPassedCrash_eq_find? (s : SubmissionEntry) :
    hasPassedCrash s = (s.crashes.find? (fun cw => cw.result.isPassed)).isSome := by
  rw [hasPassedCrash, find?_isSome_eq_any]

theorem hasPassedPatch_eq_find? (s : SubmissionEntry) :
    hasPassedPatch s = (s.patches.find? (fun pe => pe.result.isPassed)).isSome := by
  rw [hasPassedPatch, find?_isSome_eq_any]

theorem lookupTask_nil (tid : String) : lookupTask [] tid = none := rfl

theorem lookupTask_cons (k : String) (v : TaskResult) (rs : List (String × TaskResult))
    (t : String) :
    lookupTask ((k, v) :: rs) t = if k = t then some v else lookupTask rs t := by
  by_cases h : k = t
  · unfold lookupTask
    rw [List.find?_cons_of_pos _ (by simpa using h)]
    simp [h]
  · unfold lookupTask
    rw [List.find?_cons_of_neg _ (by simpa using h)]
    simp [h]

theorem updateTask_cons (k : String) (v : TaskResult) (rs : List (String × TaskResult))
    (tid : String) (f : TaskResult → TaskResult) :
    updateTask ((k, v) :: rs) tid f =
      (if k = tid then (k, f v) else (k, v)) :: updateTask rs tid f := by
  by_cases h : k = tid <;> simp [updateTask, h]

theorem lookupTask_update_self (rs : List (String × TaskResult)) (tid : String)
    (f : TaskResult → TaskResult) :
    lookupTask (updateTask rs tid f) tid = (lookupTask rs tid).map f := by
  induction rs with
  | nil => rfl
  | cons a rs ih =>
    obtain ⟨k, v⟩ := a
    rw [updateTask_cons]
    by_cases hk : k = tid
    · rw [if_pos hk, lookupTask_cons, lookupTask_cons, if_pos hk, if_pos hk]
      rfl
    · rw [if_neg hk, lookupTask_cons, lookupTask_cons, if_neg hk, if_neg hk, ih]

theorem lookupTask_update_ne (rs : List (String × TaskResult)) (tid t : String)
    (f : TaskResult → TaskResult) (h : t ≠ tid) :
    lookupTask (updateTask rs tid f) t = lookupTask rs t := by
  induction rs with
  | nil => rfl
  | cons a rs ih =>
    obtain ⟨k, v⟩ := a
    rw [updateTask_cons]
    by_cases hk : k = tid
    · have hkt : ¬k = t := by rw [hk]; exact fun e => h e.symm
      rw [if_pos hk, lookupTask_cons, lookupTask_cons, if_neg hkt, if_neg hkt, ih]
    · rw [if_neg hk, lookupTask_cons, lookupTask_cons]
      by_cases hkt : k = t
      · rw [if_pos hkt, if_pos hkt]
      · rw [if_neg hkt, if_neg hkt, ih]

theorem lookupTask_append_self (rs : List (String × TaskResult)) (tid : String)
    (tr : TaskResult) :
    lookupTask (rs ++ [(tid, tr)]) tid = some ((lookupTask rs tid).getD tr) := by
  induction rs with
  | nil => rw [List.nil_append, lookupTask_cons, if_pos rfl]; rfl
  | cons a rs ih =>
    obtain ⟨k, v⟩ := a
    rw [List.cons_append, lookupTask_cons, lookupTask_cons]
    by_cases hk : k = tid
    · rw [if_pos hk, if_pos hk]
      rfl
    · rw [if_neg hk, if_neg hk, ih]

theorem lookupTask_append_ne (rs : List (String × TaskResult)) (tid t : String)
    (tr : TaskResult) (h : t ≠ tid) :
    lookupTask (rs ++ [(tid, tr)]) t = lookupTask rs t := by
  induction rs with
  | nil =>
    have : ¬tid = t := fun e => h e.symm
    rw [List.nil_append, lookupTask_cons, if_neg this, lookupTask_nil]
  | cons a rs ih =>
    obtain ⟨k, v⟩ := a
    rw [List.cons_append, lookupTask_cons, lookupTask_cons]
    by_cases hkt : k = t
    · rw [if_pos hkt, if_pos hkt]
    · rw [if_neg hkt, if_neg hkt, ih]

theorem truncate_stacktraces_stop (s : SubmissionEntry) (m : Nat) :
    (truncate_stacktraces s m).stop = s.stop := rfl

theorem viewOf_stop (cmd : ReadSubmissionsSettings) (s : SubmissionEntry) :
    (viewOf cmd s).stop = s.stop := by
  unfold viewOf
  split <;> rfl

theorem viewOf_crashes_nil (cmd : ReadSubmissionsSettings) (s : SubmissionEntry)
    (h : s.crashes = []) : (viewOf cmd s).crashes = [] := by
  unfold viewOf
  split
  · exact h
  · simp [truncate_stacktraces, h]

/-- Net effect of one tallied entry on its task's aggregate: the
    vulnerability count grows by one when some crash PASSED, the patch
    count grows by one when some patch PASSED, the bundle count grows by
    one when the entry has a bundle and did not hit the assertion (a
    PASSED patch without a PASSED crash), and the first PASSED crash's
    competition PoV id is appended to patched_vulnerabilities or
    non_patched_vulnerabilities according to whether a PASSED patch
    exists. -/
def tallyDelta (sub : SubmissionEntry) (tr : TaskResult) : TaskResult :=
  { tr with
    n_vulnerabilities := tr.n_vulnerabilities + (if hasPassedCrash sub then 1 else 0),
    n_patches := tr.n_patches + (if hasPassedPatch sub then 1 else 0),
    n_bundles := tr.n_bundles +
      (if (!sub.bundles.isEmpty && (!hasPassedPatch sub || hasPassedCrash sub)) then 1 else 0),
    patched_vulnerabilities := tr.patched_vulnerabilities ++
      (if (hasPassedCrash sub && hasPassedPatch sub) then [firstPassedPovId sub] else []),
    non_patched_vulnerabilities := tr.non_patched_vulnerabilities ++
      (if (hasPassedCrash sub && !hasPassedPatch sub) then [firstPassedPovId sub] else []) }

theorem lookupTask_tallyEntry_self (st : ReadState) (i : Nat) (tid : String)
    (task : TaskInfo) (sub : SubmissionEntry) :
    lookupTask (tallyEntry st i tid task sub).result tid =
      some (tallyDelta sub ((lookupTask st.result tid).getD (freshTaskResult tid task))) := by
  have hbase :
      lookupTask
        (if (lookupTask st.result tid).isSome then st.result
         else st.result ++ [(tid, freshTaskResult tid task)]) tid =
      some ((lookupTask st.result tid).getD (freshTaskResult tid task)) := by
    rcases hL : lookupTask st.result tid with _ | x
    · simp [hL, lookupTask_append_self]
    · simp [hL]
  simp only [tallyEntry]
  rcases hp : sub.patches.find? (fun pe => pe.result.isPassed) with _ | p <;>
    rcases hc : sub.crashes.find? (fun cw => cw.result.isPassed) with _ | cw <;>
    by_cases hb : sub.bundles.isEmpty <;>
    simp only [hp, hc, hb, Option.isSome_none, Option.isSome_some, if_true, if_false,
      Bool.false_eq_true, ite_true, ite_false, Bool.true_eq_false] <;>
    simp only [lookupTask_update_self, hbase, Option.map_some'] <;>
    simp [tallyDelta, hasPassedCrash_eq_find?, hasPassedPatch_eq_find?, hp, hc, hb,
      firstPassedPovId]

theorem lookupTask_tallyEntry_ne (st : ReadState) (i : Nat) (tid t : String)
    (task : TaskInfo) (sub : SubmissionEntry) (h : t ≠ tid) :
    lookupTask (tallyEntry st i tid task sub).result t = lookupTask st.result t := by
  have hbase :
      lookupTask
        (if (lookupTask st.result tid).isSome then st.result
         else st.result ++ [(tid, freshTaskResult tid task)]) t =
      lookupTask st.result t := by
    rcases hL : lookupTask st.result tid with _ | x
    · simp [hL, lookupTask_append_ne _ _ _ _ h]
    · simp [hL]
  simp only [tallyEntry]
  rcases hp : sub.patches.find? (fun pe => pe.result.isPassed) with _ | p <;>
    rcases hc : sub.crashes.find? (fun cw => cw.result.isPassed) with _ | cw <;>
    by_cases hb : sub.bundles.isEmpty <;>
    simp only [hp, hc, hb, Option.isSome_none, Option.isSome_some, if_true, if_false,
      Bool.false_eq_true, ite_true, ite_false, Bool.true_eq_false] <;>
    simp [lookupTask_update_ne _ _ _ _ h, hbase]

theorem tallyEntry_printed (st : ReadState) (i : Nat) (tid : String)
    (task : TaskInfo) (sub : SubmissionEntry) :
    (tallyEntry st i tid task sub).printed =
      st.printed ++ (if (hasPassedPatch sub && !hasPassedCrash sub) then ([] : List Nat)
                     else [i]) := by
  simp only [tallyEntry]
  rcases hp : sub.patches.find? (fun pe => pe.result.isPassed) with _ | p <;>
    rcases hc : sub.crashes.find? (fun cw => cw.result.isPassed) with _ | cw <;>
    simp [hasPassedCrash_eq_find?, hasPassedPatch_eq_find?, hp, hc]

theorem tallyEntry_errors (st : ReadState) (i : Nat) (tid : String)
    (task : TaskInfo) (sub : SubmissionEntry) :
    (tallyEntry st i tid task sub).errors =
      st.errors ++ (if (hasPassedPatch sub && !hasPassedCrash sub) then [i]
                    else ([] : List Nat)) := by
  simp only [tallyEntry]
  rcases hp : sub.patches.find? (fun pe => pe.result.isPassed) with _ | p <;>
    rcases hc : sub.crashes.find? (fun cw => cw.result.isPassed) with _ | cw <;>
    simp [hasPassedCrash_eq_find?, hasPassedPatch_eq_find?, hp, hc]

theorem tallyEntry_result_congr (st st' : ReadState) (i j : Nat) (tid : String)
    (task : TaskInfo) (sub : SubmissionEntry) (h : st.result = st'.result) :
    (tallyEntry st i tid task sub).result = (tallyEntry st' j tid task sub).result := by
  simp only [tallyEntry]
  rcases hp : sub.patches.find? (fun pe => pe.result.isPassed) with _ | p <;>
    rcases hc : sub.crashes.find? (fun cw => cw.result.isPassed) with _ | cw <;>
    simp [hp, hc, h]

theorem readStep_none (reg : TaskLookup) (cmd : ReadSubmissionsSettings)
    (st : ReadState) (i : Nat) :
    readStep reg cmd st (i, none) = { st with errors := st.errors ++ [i] } := rfl

theorem readStep_stop_filtered (reg : TaskLookup) (cmd : ReadSubmissionsSettings)
    (st : ReadState) (i : Nat) (s : SubmissionEntry)
    (h : (cmd.filter_stop && (viewOf cmd s).stop) = true) :
    readStep reg cmd st (i, some s) = st := by
  simp only [readStep, h, if_true]

theorem readStep_processed (reg : TaskLookup) (cmd : ReadSubmissionsSettings)
    (st : ReadState) (i : Nat) (s : SubmissionEntry) (c0 : CrashWithId) (task : TaskInfo)
    (hstop : (cmd.filter_stop && (viewOf cmd s).stop) = false)
    (hhead : (viewOf cmd s).crashes.head? = some c0)
    (hreg : reg c0.crash.crash.target.task_id = some task)
    (hfilt : ¬(cmd.task_id ≠ "" ∧ c0.crash.crash.target.task_id ≠ cmd.task_id)) :
    readStep reg cmd st (i, some s) =
      tallyEntry st i c0.crash.crash.target.task_id task (viewOf cmd s) := by
  simp only [readStep, hstop, Bool.false_eq_true, if_false, hhead, hreg, if_neg hfilt]

theorem readStep_empty_crashes (reg : TaskLookup) (cmd : ReadSubmissionsSettings)
    (st : ReadState) (i : Nat) (s : SubmissionEntry) (h : s.crashes = [])
    (hstop : (cmd.filter_stop && s.stop) = false) :
    readStep reg cmd st (i, some s) = { st with errors := st.errors ++ [i] } := by
  have h1 : (viewOf cmd s).crashes.head? = none := by
    rw [viewOf_crashes_nil cmd s h]
    rfl
  have h2 : (cmd.filter_stop && (viewOf cmd s).stop) = false := by
    rw [viewOf_stop]
    exact hstop
  simp only [readStep, h2, Bool.false_eq_true, if_false, h1]

theorem readStep_empty_crashes_frame (reg : TaskLookup) (cmd : ReadSubmissionsSettings)
    (st : ReadState) (i : Nat) (s : SubmissionEntry) (h : s.crashes = []) :
    (readStep reg cmd st (i, some s)).result = st.result ∧
    (readStep reg cmd st (i, some s)).printed = st.printed := by
  by_cases h2 : (cmd.filter_stop && (viewOf cmd s).stop) = true
  · rw [readStep_stop_filtered reg cmd st i s h2]
    exact ⟨rfl, rfl⟩
  · have h2' : (cmd.filter_stop && s.stop) = false := by
      rw [← viewOf_stop cmd s]
      simpa using h2
    rw [readStep_empty_crashes reg cmd st i s h h2']
    exact ⟨rfl, rfl⟩

theorem readStep_result_congr (reg : TaskLookup) (cmd : ReadSubmissionsSettings)
    (st st' : ReadState) (i j : Nat) (r : Option SubmissionEntry)
    (h : st.result = st'.result) :
    (readStep reg cmd st (i, r)).result = (readStep reg cmd st' (j, r)).result := by
  cases r with
  | none => simpa using h
  | some s0 =>
    simp only [readStep]
    by_cases h1 : (cmd.filter_stop && (viewOf cmd s0).stop) = true
    · simp [h1, h]
    · have h1' : (cmd.filter_stop && (viewOf cmd s0).stop) = false := by simpa using h1
      simp only [h1', Bool.false_eq_true, if_false]
      rcases hh : (viewOf cmd s0).crashes.head? with _ | c0
      · simpa using h
      · simp only []
        rcases hr : reg c0.crash.crash.target.task_id with _ | task
        · simpa using h
        · by_cases hf : cmd.task_id ≠ "" ∧ c0.crash.crash.target.task_id ≠ cmd.task_id
          · simp [hf, h]
          · simp only [if_neg hf]
            exact tallyEntry_result_congr _ _ _ _ _ _ _ h

theorem readFoldFrom_result_congr (reg : TaskLookup) (cmd : ReadSubmissionsSettings)
    (l : List (Option SubmissionEntry)) :
    ∀ (n m : Nat) (st st' : ReadState), st.result = st'.result →
      (readFoldFrom reg cmd n l st).result = (readFoldFrom reg cmd m l st').result := by
  induction l with
  | nil =>
    intro n m st st' h
    simpa [readFoldFrom] using h
  | cons r l ih =>
    intro n m st st' h
    simp only [readFoldFrom]
    exact ih _ _ _ _ (readStep_result_congr reg cmd st st' n m r h)

theorem readFoldFrom_insert_inert (reg : TaskLookup) (cmd : ReadSubmissionsSettings)
    (r : Option SubmissionEntry)
    (hr : ∀ (st : ReadState) (i : Nat), (readStep reg cmd st (i, r)).result = st.result)
    (l2 : List (Option SubmissionEntry)) :
    ∀ (l1 : List (Option SubmissionEntry)) (n : Nat) (st : ReadState),
      (readFoldFrom reg cmd n (l1 ++ r :: l2) st).result =
        (readFoldFrom reg cmd n (l1 ++ l2) st).result := by
  intro l1
  induction l1 with
  | nil =>
    intro n st
    simp only [List.nil_append, readFoldFrom]
    exact readFoldFrom_result_congr reg cmd l2 _ _ _ _ (hr st n)
  | cons a l1 ih =>
    intro n st
    simp only [List.cons_append, readFoldFrom]
    exact ih _ _

theorem extractStep_none (reg : TaskLookup) (cmd : ExtractPovsSettings)
    (st : ExtractState) (i : Nat) :
    extractStep reg cmd st (i, none) = { st with errors := st.errors ++ [i] } := rfl

theorem extractStep_stop (reg : TaskLookup) (cmd : ExtractPovsSettings)
    (st : ExtractState) (i : Nat) (s : SubmissionEntry) (h : s.stop = true) :
    extractStep reg cmd st (i, some s) = st := by
  simp only [extractStep, h, if_true]

theorem extractStep_empty_crashes (reg : TaskLookup) (cmd : ExtractPovsSettings)
    (st : ExtractState) (i : Nat) (s : SubmissionEntry) (h : s.crashes = []) :
    extractStep reg cmd st (i, some s) = st := by
  simp only [extractStep, h]
  cases hs : s.stop <;> simp

theorem extractStep_processed (reg : TaskLookup) (cmd : ExtractPovsSettings)
    (st : ExtractState) (i : Nat) (s : SubmissionEntry) (c0 : CrashWithId)
    (hstop : s.stop = false)
    (hhead : s.crashes.head? = some c0)
    (hfilt : ¬(cmd.task_id ≠ "" ∧ c0.crash.crash.target.task_id ≠ cmd.task_id))
    (hpass : (cmd.passed_only && !hasPassedCrash s) = false) :
    extractStep reg cmd st (i, some s) =
      { st with
        vulnCounter := setCount st.vulnCounter c0.crash.crash.target.task_id
          (lookupCount st.vulnCounter c0.crash.crash.target.task_id + 1),
        vulns := st.vulns ++ [{
          task_id := c0.crash.crash.target.task_id,
          project_name :=
            match reg c0.crash.crash.target.task_id with
            | some task => task.project_name
            | none => "unknown",
          vuln_num := lookupCount st.vulnCounter c0.crash.crash.target.task_id + 1,
          crashOutputs := s.crashes.map crashOutputOf,
          patchFiles := (extractPatchFiles s.patches).2.1,
          patchMetas := (extractPatchFiles s.patches).2.2,
          meta := { task_id := c0.crash.crash.target.task_id,
                    project_name :=
                      match reg c0.crash.crash.target.task_id with
                      | some task => task.project_name
                      | none => "unknown",
                    num_crashes := s.crashes.length,
                    num_patches := (extractPatchFiles s.patches).1,
                    num_bundles := s.bundles.length,
                    patch_idx := s.patch_idx,
                    stopped := s.stop } }] } := by
  simp only [extractStep, hstop, Bool.false_eq_true, if_false, hhead, if_neg hfilt, hpass]

theorem extractStep_congr (reg : TaskLookup) (cmd : ExtractPovsSettings)
    (st st' : ExtractState) (i j : Nat) (r : Option SubmissionEntry)
    (hc : st.vulnCounter = st'.vulnCounter) (hv : st.vulns = st'.vulns) :
    (extractStep reg cmd st (i, r)).vulnCounter = (extractStep reg cmd st' (j, r)).vulnCounter ∧
      (extractStep reg cmd st (i, r)).vulns = (extractStep reg cmd st' (j, r)).vulns := by
  cases r with
  | none => exact ⟨hc, hv⟩
  | some s =>
    simp only [extractStep]
    by_cases h1 : s.stop = true
    · simp [h1, hc, hv]
    · have h1' : s.stop = false := by simpa using h1
      simp only [h1', Bool.false_eq_true, if_false]
      rcases hh : s.crashes.head? with _ | c0
      · exact ⟨hc, hv⟩
      · by_cases hf : cmd.task_id ≠ "" ∧ c0.crash.crash.target.task_id ≠ cmd.task_id
        · simp [hf, hc, hv]
        · simp only [if_neg hf]
          by_cases hp : (cmd.passed_only && !hasPassedCrash s) = true
          · simp [hp, hc, hv]
          · have hp' : (cmd.passed_only && !hasPassedCrash s) = false := by simpa using hp
            simp [hp', hc, hv]

theorem extractFoldFrom_congr (reg : TaskLookup) (cmd : ExtractPovsSettings)
    (l : List (Option SubmissionEntry)) :
    ∀ (n m : Nat) (st st' : ExtractState),
      st.vulnCounter = st'.vulnCounter → st.vulns = st'.vulns →
      (extractFoldFrom reg cmd n l st).vulnCounter =
          (extractFoldFrom reg cmd m l st').vulnCounter ∧
        (extractFoldFrom reg cmd n l st).vulns = (extractFoldFrom reg cmd m l st').vulns := by
  induction l with
  | nil =>
    intro n m st st' hc hv
    exact ⟨hc, hv⟩
  | cons r l ih =>
    intro n m st st' hc hv
    simp only [extractFoldFrom]
    obtain ⟨hc2, hv2⟩ := extractStep_congr reg cmd st st' n m r hc hv
    exact ih _ _ _ _ hc2 hv2

theorem extractFoldFrom_insert_inert (reg : TaskLookup) (cmd : ExtractPovsSettings)
    (r : Option SubmissionEntry)
    (hr : ∀ (st : ExtractState) (i : Nat),
      (extractStep reg cmd st (i, r)).vulnCounter = st.vulnCounter ∧
        (extractStep reg cmd st (i, r)).vulns = st.vulns)
    (l2 : List (Option SubmissionEntry)) :
    ∀ (l1 : List (Option SubmissionEntry)) (n : Nat) (st : ExtractState),
      (extractFoldFrom reg cmd n (l1 ++ r :: l2) st).vulnCounter =
          (extractFoldFrom reg cmd n (l1 ++ l2) st).vulnCounter ∧
        (extractFoldFrom reg cmd n (l1 ++ r :: l2) st).vulns =
          (extractFoldFrom reg cmd n (l1 ++ l2) st).vulns := by
  intro l1
  induction l1 with
  | nil =>
    intro n st
    simp only [List.nil_append, extractFoldFrom]
    exact extractFoldFrom_congr reg cmd l2 _ _ _ _ (hr st n).1 (hr st n).2
  | cons a l1 ih =>
    intro n st
    simp only [List.cons_append, extractFoldFrom]
    exact ih _ _

/-- Projection of a task aggregate onto its three counters. -/
def projCounts (tr : TaskResult) : Nat × Nat × Nat :=
  (tr.n_vulnerabilities, tr.n_patches, tr.n_bundles)

/-- A stored record is attributed to task tid by the read-submissions
    loop when it decodes, survives the stop filter, has a first crash
    whose target task id is tid, resolves in the registry and passes the
    task-id filter. -/
def attributedTo (registry : TaskLookup) (cmd : ReadSubmissionsSettings) (tid : String) :
    Option SubmissionEntry → Bool
  | none => false
  | some s0 =>
    (!(cmd.filter_stop && (viewOf cmd s0).stop)) &&
      (match (viewOf cmd s0).crashes.head? with
       | none => false
       | some c0 =>
         decide (c0.crash.crash.target.task_id = tid) && (registry tid).isSome &&
           !(decide (cmd.task_id ≠ "") && decide (c0.crash.crash.target.task_id ≠ cmd.task_id)))

/-- The record contributes one to tid's vulnerability count: attributed
    and at least one PASSED crash. -/
def countsVuln (registry : TaskLookup) (cmd : ReadSubmissionsSettings) (tid : String)
    (raw : Option SubmissionEntry) : Bool :=
  attributedTo registry cmd tid raw &&
    (match raw with
     | some s0 => hasPassedCrash (viewOf cmd s0)
     | none => false)

/-- The record contributes one to tid's patch count: attributed and at
    least one PASSED patch. -/
def countsPatch (registry : TaskLookup) (cmd : ReadSubmissionsSettings) (tid : String)
    (raw : Option SubmissionEntry) : Bool :=
  attributedTo registry cmd tid raw &&
    (match raw with
     | some s0 => hasPassedPatch (viewOf cmd s0)
     | none => false)

/-- The record contributes one to tid's bundle count: attributed, has a
    bundle, and does not hit the assertion branch (a PASSED patch with no
    PASSED crash aborts the record before bundles are counted). -/
def countsBundle (registry : TaskLookup) (cmd : ReadSubmissionsSettings) (tid : String)
    (raw : Option SubmissionEntry) : Bool :=
  attributedTo registry cmd tid raw &&
    (match raw with
     | some s0 =>
       (!(viewOf cmd s0).bundles.isEmpty) &&
         (!hasPassedPatch (viewOf cmd s0) || hasPassedCrash (viewOf cmd s0))
     | none => false)

theorem readStep_counts (reg : TaskLookup) (cmd : ReadSubmissionsSettings) (tid : String)
    (st : ReadState) (i : Nat) (raw : Option SubmissionEntry) :
    (lookupTask (readStep reg cmd st (i, raw)).result tid).map projCounts =
      if attributedTo reg cmd tid raw then
        some ((((lookupTask st.result tid).map projCounts).getD (0, 0, 0)).1 +
                (if countsVuln reg cmd tid raw then 1 else 0),
              (((lookupTask st.result tid).map projCounts).getD (0, 0, 0)).2.1 +
                (if countsPatch reg cmd tid raw then 1 else 0),
              (((lookupTask st.result tid).map projCounts).getD (0, 0, 0)).2.2 +
                (if countsBundle reg cmd tid raw then 1 else 0))
      else (lookupTask st.result tid).map projCounts := by
  cases raw with
  | none => simp [readStep_none, attributedTo]
  | some s0 =>
    by_cases h1 : (cmd.filter_stop && (viewOf cmd s0).stop) = true
    · rw [readStep_stop_filtered reg cmd st i s0 h1]
      simp [attributedTo, h1]
    · have h1' : (cmd.filter_stop && (viewOf cmd s0).stop) = false := by simpa using h1
      rcases hh : (viewOf cmd s0).crashes.head? with _ | c0
      · have hstep : readStep reg cmd st (i, some s0) =
            { st with errors := st.errors ++ [i] } := by
          simp only [readStep, h1', Bool.false_eq_true, if_false, hh]
        rw [hstep]
        simp [attributedTo, h1', hh]
      · by_cases htid : c0.crash.crash.target.task_id = tid
        · rcases hr : reg c0.crash.crash.target.task_id with _ | task
          · have hstep : readStep reg cmd st (i, some s0) = st := by
              simp only [readStep, h1', Bool.false_eq_true, if_false, hh, hr]
            have hr' : reg tid = none := by rw [← htid]; exact hr
            rw [hstep]
            simp [attributedTo, h1', hh, hr']
          · have hr' : reg tid = some task := by rw [← htid]; exact hr
            by_cases hf : cmd.task_id ≠ "" ∧ c0.crash.crash.target.task_id ≠ cmd.task_id
            · have hstep : readStep reg cmd st (i, some s0) = st := by
                simp only [readStep, h1', Bool.false_eq_true, if_false, hh, hr, if_pos hf]
              have hattr : attributedTo reg cmd tid (some s0) = false := by
                simp [attributedTo, h1', hh, hf.1, hf.2]
              rw [hstep, hattr]
              simp
            · rw [readStep_processed reg cmd st i s0 c0 task h1' hh hr hf]
              rw [htid]
              have hl := lookupTask_tallyEntry_self st i tid task (viewOf cmd s0)
              rw [hl]
              have hattr : attributedTo reg cmd tid (some s0) = true := by
                by_cases he : cmd.task_id = ""
                · simp [attributedTo, h1', hh, htid, hr', he]
                · have h4 : tid = cmd.task_id := by
                    have h3 : ¬(c0.crash.crash.target.task_id ≠ cmd.task_id) :=
                      fun hb => hf ⟨he, hb⟩
                    rw [htid] at h3
                    exact not_not.mp h3
                  have hr2 : reg cmd.task_id = some task := by rw [← h4]; exact hr'
                  simp [attributedTo, h1', hh, htid, hr', hr2, h4]
              rw [if_pos hattr]
              have hcv : countsVuln reg cmd tid (some s0) =
                  hasPassedCrash (viewOf cmd s0) := by
                simp [countsVuln, hattr]
              have hcp : countsPatch reg cmd tid (some s0) =
                  hasPassedPatch (viewOf cmd s0) := by
                simp [countsPatch, hattr]
              have hcb : countsBundle reg cmd tid (some s0) =
                  ((!(viewOf cmd s0).bundles.isEmpty) &&
                    (!hasPassedPatch (viewOf cmd s0) || hasPassedCrash (viewOf cmd s0))) := by
                simp [countsBundle, hattr]
              rw [hcv, hcp, hcb]
              rcases hL : lookupTask st.result tid with _ | x
              · simp [tallyDelta, projCounts, freshTaskResult]
              · simp [tallyDelta, projCounts]
        · have hne : tid ≠ c0.crash.crash.target.task_id := fun e => htid e.symm
          have hattr : attributedTo reg cmd tid (some s0) = false := by
            simp [attributedTo, h1', hh, htid]
          rw [hattr]
          simp only [Bool.false_eq_true, if_false]
          rcases hr : reg c0.crash.crash.target.task_id with _ | task
          · have hstep : readStep reg cmd st (i, some s0) = st := by
              simp only [readStep, h1', Bool.false_eq_true, if_false, hh, hr]
            rw [hstep]
          · by_cases hf : cmd.task_id ≠ "" ∧ c0.crash.crash.target.task_id ≠ cmd.task_id
            · have hstep : readStep reg cmd st (i, some s0) = st := by
                simp only [readStep, h1', Bool.false_eq_true, if_false, hh, hr, if_pos hf]
              rw [hstep]
            · rw [readStep_processed reg cmd st i s0 c0 task h1' hh hr hf]
              rw [lookupTask_tallyEntry_ne st i c0.crash.crash.target.task_id tid task
                (viewOf cmd s0) hne]

theorem readFoldFrom_counts (reg : TaskLookup) (cmd : ReadSubmissionsSettings) (tid : String)
    (l : List (Option SubmissionEntry)) :
    ∀ (n : Nat) (st : ReadState),
      (lookupTask (readFoldFrom reg cmd n l st).result tid).map projCounts =
        match (lookupTask st.result tid).map projCounts with
        | some b =>
          some (b.1 + l.countP (countsVuln reg cmd tid),
                b.2.1 + l.countP (countsPatch reg cmd tid),
                b.2.2 + l.countP (countsBundle reg cmd tid))
        | none =>
          if l.any (attributedTo reg cmd tid) then
            some (l.countP (countsVuln reg cmd tid),
                  l.countP (countsPatch reg cmd tid),
                  l.countP (countsBundle reg cmd tid))
          else none := by
  induction l with
  | nil =>
    intro n st
    rcases hL : (lookupTask st.result tid).map projCounts with _ | b <;> simp [readFoldFrom, hL]
  | cons r l ih =>
    intro n st
    simp only [readFoldFrom]
    rw [ih (n + 1) (readStep reg cmd st (n, r))]
    have hstep := readStep_counts reg cmd tid st n r
    by_cases hA : attributedTo reg cmd tid r = true
    · rw [if_pos hA] at hstep
      rw [hstep]
      rcases hL : (lookupTask st.result tid).map projCounts with _ | b0 <;>
        by_cases h1 : countsVuln reg cmd tid r = true <;>
        by_cases h2 : countsPatch reg cmd tid r = true <;>
        by_cases h3 : countsBundle reg cmd tid r = true <;>
        simp [List.any_cons, hA, List.countP_cons, h1, h2, h3, Prod.ext_iff] <;>
        omega
    · have hA' : attributedTo reg cmd tid r = false := by simpa using hA
      rw [if_neg (by simp [hA'])] at hstep
      rw [hstep]
      have hv : countsVuln reg cmd tid r = false := by simp [countsVuln, hA']
      have hp : countsPatch reg cmd tid r = false := by simp [countsPatch, hA']
      have hb : countsBundle reg cmd tid r = false := by simp [countsBundle, hA']
      rcases hL : (lookupTask st.result tid).map projCounts with _ | b0 <;>
        simp [hL, List.countP_cons, List.any_cons, hv, hp, hb, hA']

theorem extractPatchFiles_foldl (patches : List PatchEntry) :
    ∀ acc : Nat × List (Nat × String) × List (Nat × PatchMeta),
      (patches.foldl
        (fun acc pe =>
          if pe.patch = "" then acc
          else
            (acc.1 + 1,
             acc.2.1 ++ [(acc.1 + 1, pe.patch)],
             acc.2.2 ++ [(acc.1 + 1,
               { internal_patch_id := pe.internal_patch_id,
                 competition_patch_id := pe.competition_patch_id,
                 result := pe.result })]))
        acc).1 = acc.1 + (patches.filter (fun pe => pe.patch ≠ "")).length ∧
      (patches.foldl
        (fun acc pe =>
          if pe.patch = "" then acc
          else
            (acc.1 + 1,
             acc.2.1 ++ [(acc.1 + 1, pe.patch)],
             acc.2.2 ++ [(acc.1 + 1,
               { internal_patch_id := pe.internal_patch_id,
                 competition_patch_id := pe.competition_patch_id,
                 result := pe.result })]))
        acc).2.1.map Prod.snd =
        acc.2.1.map Prod.snd ++
          (patches.filter (fun pe => pe.patch ≠ "")).map (fun pe => pe.patch) := by
  induction patches with
  | nil =>
    intro acc
    simp
  | cons pe patches ih =>
    intro acc
    by_cases hpe : pe.patch = ""
    · have hfilt : (decide (pe.patch ≠ "")) = false := by simp [hpe]
      simp only [List.foldl_cons, if_pos hpe, List.filter_cons, hfilt,
        Bool.false_eq_true, if_false]
      exact ih acc
    · have hfilt : (decide (pe.patch ≠ "")) = true := by simp [hpe]
      simp only [List.foldl_cons, if_neg hpe, List.filter_cons, hfilt, if_true]
      obtain ⟨ih1, ih2⟩ := ih (acc.1 + 1,
        acc.2.1 ++ [(acc.1 + 1, pe.patch)],
        acc.2.2 ++ [(acc.1 + 1,
          { internal_patch_id := pe.internal_patch_id,
            competition_patch_id := pe.competition_patch_id,
            result := pe.result })])
      constructor
      · rw [ih1]
        simp
        omega
      · rw [ih2]
        simp

theorem extractPatchFiles_spec (patches : List PatchEntry) :
    (extractPatchFiles patches).1 = (patches.filter (fun pe => pe.patch ≠ "")).length ∧
      (extractPatchFiles patches).2.1.map Prod.snd =
        (patches.filter (fun pe => pe.patch ≠ "")).map (fun pe => pe.patch) := by
  have h := extractPatchFiles_foldl patches (0, [], [])
  simpa [extractPatchFiles] using h

theorem truncStr_of_le (m : Nat) (s : String) (h : s.length ≤ m) : truncStr m s = s := by
  unfold truncStr
  rw [if_neg]
  rintro ⟨h1, h2⟩
  omega

theorem truncStr_of_lt (m : Nat) (s : String) (h : m < s.length) :
    truncStr m s = s.take m ++ "... (truncated)" := by
  have hne : s ≠ "" := by
    intro e
    rw [e] at h
    have : ("" : String).length = 0 := rfl
    omega
  unfold truncStr
  rw [if_pos ⟨hne, h⟩]

/-- Pointwise display-copy contract between an input crash and its
    truncated copy: stacktrace and tracer stacktrace longer than m are
    replaced by their first m characters plus the marker, fields of
    length at most m are unchanged, and the id, verdict, path, harness
    and target fields are copied verbatim. -/
def DisplayTruncated (m : Nat) (a b : CrashWithId) : Prop :=
  (m < a.crash.crash.stacktrace.length →
    b.crash.crash.stacktrace = a.crash.crash.stacktrace.take m ++ "... (truncated)") ∧
  (a.crash.crash.stacktrace.length ≤ m →
    b.crash.crash.stacktrace = a.crash.crash.stacktrace) ∧
  (m < a.crash.tracer_stacktrace.length →
    b.crash.tracer_stacktrace = a.crash.tracer_stacktrace.take m ++ "... (truncated)") ∧
  (a.crash.tracer_stacktrace.length ≤ m →
    b.crash.tracer_stacktrace = a.crash.tracer_stacktrace) ∧
  (a.crash.crash.crash_token.length ≤ m →
    b.crash.crash.crash_token = a.crash.crash.crash_token) ∧
  b.competition_pov_id = a.competition_pov_id ∧
  b.result = a.result ∧
  b.crash.crash.crash_input_path = a.crash.crash.crash_input_path ∧
  b.crash.crash.harness_name = a.crash.crash.harness_name ∧
  b.crash.crash.target = a.crash.crash.target

/-- Claim C5: truncate_stacktraces produces a display-only copy — the
    patches, bundles, patch_idx and stop fields and the number of crashes
    are those of the input, each crash stacktrace or tracer stacktrace
    longer than max_length is replaced in the copy by its first
    max_length characters followed by the truncation marker, every
    truncatable field of length at most max_length is identical to the
    input's, and all remaining crash fields are copied verbatim; the
    input entry itself is left unchanged, the function being a pure copy
    (the source serializes the message to text and reparses it into a
    fresh object, and nothing is written back to the store). -/
theorem truncate_stacktraces_display_copy (s : SubmissionEntry) (m : Nat) :
    (truncate_stacktraces s m).patches = s.patches ∧
    (truncate_stacktraces s m).bundles = s.bundles ∧
    (truncate_stacktraces s m).patch_idx = s.patch_idx ∧
    (truncate_stacktraces s m).stop = s.stop ∧
    (truncate_stacktraces s m).crashes.length = s.crashes.length ∧
    List.Forall₂ (DisplayTruncated m) s.crashes (truncate_stacktraces s m).crashes := by
  refine ⟨rfl, rfl, rfl, rfl, by simp [truncate_stacktraces], ?_⟩
  have hc : (truncate_stacktraces s m).crashes = s.crashes.map (truncateCrashWithId m) := rfl
  rw [hc, List.forall₂_map_right_iff]
  rw [List.forall₂_same]
  intro cw _
  refine ⟨?_, ?_, ?_, ?_, ?_, rfl, rfl, rfl, rfl, rfl⟩
  · intro h
    simp [truncateCrashWithId, truncStr_of_lt _ _ h]
  · intro h
    simp [truncateCrashWithId, truncStr_of_le _ _ h]
  · intro h
    simp [truncateCrashWithId, truncStr_of_lt _ _ h]
  · intro h
    simp [truncateCrashWithId, truncStr_of_le _ _ h]
  · intro h
    simp [truncateCrashWithId, truncStr_of_le _ _ h]

/-- Shared concrete fixture: a build target. -/
def exTarget : Target := { task_id := "task1", sanitizer := "address", engine := "libfuzzer" }

/-- Shared concrete fixture: a crash with a given token and stacktrace. -/
def exCrash (tok st : String) : Crash :=
  { crash_token := tok, stacktrace := st, crash_input_path := "/tmp/pov",
    harness_name := "fuzz", target := exTarget }

/-- Shared concrete fixture: a crash record with id and verdict. -/
def exCW (tok st tracer pov : String) (r : SubmissionResult) : CrashWithId :=
  { crash := { crash := exCrash tok st, tracer_stacktrace := tracer },
    competition_pov_id := pov, result := r }

/-- Concrete entry for the C5 witness: one crash whose stacktrace is
    longer than the display limit used. -/
def exC5 : SubmissionEntry :=
  { crashes := [exCW "tok" "abcdefgh" "tr" "pov-1" .PASSED],
    patches := [], bundles := [], patch_idx := 0, stop := false }

theorem truncate_stacktraces_display_copy_witness :
    (truncate_stacktraces exC5 5).patches = exC5.patches ∧
    List.Forall₂ (DisplayTruncated 5) exC5.crashes (truncate_stacktraces exC5 5).crashes := by
  have h := truncate_stacktraces_display_copy exC5 5
  exact ⟨h.1, h.2.2.2.2.2⟩

/-- Claim C9: truncate_stacktraces truncates more than stacktraces — a
    crash_token longer than max_length is also replaced in the display
    copy by its first max_length characters plus the truncation marker,
    so the displayed dedup key can differ from the stored one. -/
theorem crash_token_also_truncated (s : SubmissionEntry) (m : Nat) (i : Nat)
    (hi : i < s.crashes.length)
    (hm : m < (s.crashes.get ⟨i, hi⟩).crash.crash.crash_token.length) :
    ((truncate_stacktraces s m).crashes.get
        ⟨i, by simpa [truncate_stacktraces] using hi⟩).crash.crash.crash_token =
      (s.crashes.get ⟨i, hi⟩).crash.crash.crash_token.take m ++ "... (truncated)" := by
  have hc : (truncate_stacktraces s m).crashes = s.crashes.map (truncateCrashWithId m) := rfl
  simp only [hc, List.get_eq_getElem, List.getElem_map]
  simp only [truncateCrashWithId]
  rw [truncStr_of_lt _ _ (by simpa [List.get_eq_getElem] using hm)]

/-- Concrete entry for the C9 witness: the stored dedup key is eight
    characters long, the displayed copy cuts it to five plus marker. -/
def exC9 : SubmissionEntry :=
  { crashes := [exCW "abcdefgh" "st" "tr" "pov-9" .PASSED],
    patches := [], bundles := [], patch_idx := 0, stop := false }

theorem crash_token_also_truncated_witness :
    0 < exC9.crashes.length ∧
    ((truncate_stacktraces exC9 5).crashes.get ⟨0, by decide⟩).crash.crash.crash_token =
      "abcde" ++ "... (truncated)" ∧
    ("abcde" ++ "... (truncated)") ≠ "abcdefgh" := by
  refine ⟨by decide, ?_, by decide⟩
  have h := crash_token_also_truncated exC9 5 0 (by decide) (by decide)
  rw [h]
  decide

/-- Claim C2: for an entry the loop actually processes (decoded,
    surviving the stop filter, non-empty crashes, registered task,
    passing the task filter), the entry's first PASSED crash id is
    appended to the task's non-patched vulnerability list exactly when
    the entry has at least one PASSED crash and no PASSED patch, and to
    the patched list exactly when it has a PASSED crash and a PASSED
    patch — so once some patch on the entry is PASSED it is listed as
    patched instead of non-patched. -/
theorem non_patched_vulnerability_listing (reg : TaskLookup) (cmd : ReadSubmissionsSettings)
    (st : ReadState) (i : Nat) (s : SubmissionEntry) (c0 : CrashWithId) (task : TaskInfo)
    (hstop : (cmd.filter_stop && (viewOf cmd s).stop) = false)
    (hhead : (viewOf cmd s).crashes.head? = some c0)
    (hreg : reg c0.crash.crash.target.task_id = some task)
    (hfilt : ¬(cmd.task_id ≠ "" ∧ c0.crash.crash.target.task_id ≠ cmd.task_id)) :
    ∃ tr, lookupTask (readStep reg cmd st (i, some s)).result
        c0.crash.crash.target.task_id = some tr ∧
      tr.non_patched_vulnerabilities =
        ((lookupTask st.result c0.crash.crash.target.task_id).getD
            (freshTaskResult c0.crash.crash.target.task_id task)).non_patched_vulnerabilities ++
          (if (hasPassedCrash (viewOf cmd s) && !hasPassedPatch (viewOf cmd s)) then
            [firstPassedPovId (viewOf cmd s)] else []) ∧
      tr.patched_vulnerabilities =
        ((lookupTask st.result c0.crash.crash.target.task_id).getD
            (freshTaskResult c0.crash.crash.target.task_id task)).patched_vulnerabilities ++
          (if (hasPassedCrash (viewOf cmd s) && hasPassedPatch (viewOf cmd s)) then
            [firstPassedPovId (viewOf cmd s)] else []) := by
  rw [readStep_processed reg cmd st i s c0 task hstop hhead hreg hfilt]
  exact ⟨_, lookupTask_tallyEntry_self st i c0.crash.crash.target.task_id task (viewOf cmd s),
    rfl, rfl⟩

/-- Shared concrete fixture: the registered task. -/
def exTask : TaskInfo := { task_id := "task1", project_name := "proj", task_type := "0" }

/-- Shared concrete fixture: a registry knowing only task1. -/
def exRegistry : TaskLookup := fun tid => if tid = "task1" then some exTask else none

/-- Shared concrete fixture: default read-submissions options. -/
def exCmd : ReadSubmissionsSettings := {}

/-- Shared concrete fixture: an entry with one PASSED crash and no
    patches. -/
def entryPassedCrashOnly : SubmissionEntry :=
  { crashes := [exCW "tok" "st" "tr" "pov-2" .PASSED],
    patches := [], bundles := [], patch_idx := 0, stop := false }

theorem non_patched_vulnerability_listing_witness :
    ∃ tr, lookupTask (readStep exRegistry exCmd { result := [], printed := [], errors := [] }
        (0, some entryPassedCrashOnly)).result "task1" = some tr ∧
      tr.non_patched_vulnerabilities = ["pov-2"] ∧
      tr.patched_vulnerabilities = [] := by
  obtain ⟨tr, h1, h2, h3⟩ := non_patched_vulnerability_listing exRegistry exCmd
    { result := [], printed := [], errors := [] } 0 entryPassedCrashOnly
    (exCW "tok" "st" "tr" "pov-2" .PASSED) exTask (by decide) (by decide) (by decide) (by decide)
  refine ⟨tr, ?_, ?_, ?_⟩
  · exact h1
  · rw [h2]; decide
  · rw [h3]; decide

/-- Claim C3: the per-task summary printed by read_submissions is fully
    derived from the stored entries — for every task id appearing in the
    final result dictionary, its vulnerability count is the number of
    stored records attributed to that task having at least one PASSED
    crash, the patch count the number having at least one PASSED patch,
    and the bundle count the number having a bundle (and not aborted by
    the assertion branch). -/
theorem per_task_counts_derived (reg : TaskLookup) (cmd : ReadSubmissionsSettings)
    (raws : List (Option SubmissionEntry)) (tid : String) (tr : TaskResult)
    (h : lookupTask (read_submissions reg cmd raws).result tid = some tr) :
    tr.n_vulnerabilities = raws.countP (countsVuln reg cmd tid) ∧
    tr.n_patches = raws.countP (countsPatch reg cmd tid) ∧
    tr.n_bundles = raws.countP (countsBundle reg cmd tid) := by
  have hf := readFoldFrom_counts reg cmd tid raws 0 { result := [], printed := [], errors := [] }
  rw [show read_submissions reg cmd raws =
    readFoldFrom reg cmd 0 raws { result := [], printed := [], errors := [] } from rfl] at h
  rw [h] at hf
  simp only [lookupTask_nil, Option.map_none'] at hf
  by_cases ha : raws.any (attributedTo reg cmd tid) = true
  · rw [if_pos ha] at hf
    simp only [Option.map_some', Option.some.injEq, projCounts, Prod.mk.injEq] at hf
    exact ⟨hf.1, hf.2.1, hf.2.2⟩
  · rw [if_neg ha] at hf
    simp at hf

/-- Concrete aggregate produced in the C3 witness. -/
def exC3tr : TaskResult :=
  { task_id := "task1", project_name := "proj", mode := "0",
    n_vulnerabilities := 1, n_patches := 0, n_bundles := 0,
    patched_vulnerabilities := [], non_patched_vulnerabilities := ["pov-2"] }

theorem per_task_counts_derived_witness :
    lookupTask (read_submissions exRegistry exCmd [some entryPassedCrashOnly, none]).result
        "task1" = some exC3tr ∧
    exC3tr.n_vulnerabilities =
      [some entryPassedCrashOnly, none].countP (countsVuln exRegistry exCmd "task1") ∧
    exC3tr.n_patches =
      [some entryPassedCrashOnly, none].countP (countsPatch exRegistry exCmd "task1") := by
  have h : lookupTask (read_submissions exRegistry exCmd
      [some entryPassedCrashOnly, none]).result "task1" = some exC3tr := by decide
  have hc := per_task_counts_derived exRegistry exCmd [some entryPassedCrashOnly, none]
    "task1" exC3tr h
  exact ⟨h, hc.1, hc.2.1⟩

/-- Claim C4: a stored record that fails to decode is skipped and logged
    with its index by both batch scans — the read-submissions loop and
    the extract-povs loop append the record's index to their error log
    and change nothing else — and every remaining record is still
    processed: dropping the corrupt record from the stored list leaves
    the aggregated result (and the extracted vulnerabilities and
    counters) unchanged. -/
theorem corrupt_record_skipped_and_logged (reg : TaskLookup) (cmd : ReadSubmissionsSettings)
    (st : ReadState) (i : Nat) (ereg : TaskLookup) (ecmd : ExtractPovsSettings)
    (est : ExtractState) (j : Nat) (l1 l2 : List (Option SubmissionEntry)) :
    readStep reg cmd st (i, none) = { st with errors := st.errors ++ [i] } ∧
    extractStep ereg ecmd est (j, none) = { est with errors := est.errors ++ [j] } ∧
    (read_submissions reg cmd (l1 ++ none :: l2)).result =
      (read_submissions reg cmd (l1 ++ l2)).result ∧
    (extract_povs ereg ecmd (l1 ++ none :: l2)).vulns =
      (extract_povs ereg ecmd (l1 ++ l2)).vulns ∧
    (extract_povs ereg ecmd (l1 ++ none :: l2)).vulnCounter =
      (extract_povs ereg ecmd (l1 ++ l2)).vulnCounter := by
  refine ⟨rfl, rfl, ?_, ?_, ?_⟩
  · exact readFoldFrom_insert_inert reg cmd none (fun st' i' => rfl) l2 l1 0 _
  · exact (extractFoldFrom_insert_inert ereg ecmd none (fun st' i' => ⟨rfl, rfl⟩) l2 l1 0 _).2
  · exact (extractFoldFrom_insert_inert ereg ecmd none (fun st' i' => ⟨rfl, rfl⟩) l2 l1 0 _).1

/-- Claim C10: a decoded submission whose crashes list is empty is
    included in neither read path's output — extract_povs skips it
    explicitly (state unchanged), read_submissions neither tallies nor
    prints it, and when it is not already removed by the stop filter it
    lands in the per-record exception handler (crashes[0] raises, the
    index is logged); processing of the remaining records continues, the
    aggregates being those of the list without the record. -/
theorem empty_crashes_record_skipped (reg : TaskLookup) (cmd : ReadSubmissionsSettings)
    (st : ReadState) (i : Nat) (ereg : TaskLookup) (ecmd : ExtractPovsSettings)
    (est : ExtractState) (j : Nat) (s : SubmissionEntry)
    (l1 l2 : List (Option SubmissionEntry)) (h : s.crashes = []) :
    extractStep ereg ecmd est (j, some s) = est ∧
    (readStep reg cmd st (i, some s)).result = st.result ∧
    (readStep reg cmd st (i, some s)).printed = st.printed ∧
    ((cmd.filter_stop && s.stop) = false →
      readStep reg cmd st (i, some s) = { st with errors := st.errors ++ [i] }) ∧
    (read_submissions reg cmd (l1 ++ some s :: l2)).result =
      (read_submissions reg cmd (l1 ++ l2)).result ∧
    (extract_povs ereg ecmd (l1 ++ some s :: l2)).vulns =
      (extract_povs ereg ecmd (l1 ++ l2)).vulns := by
  refine ⟨extractStep_empty_crashes ereg ecmd est j s h,
    (readStep_empty_crashes_frame reg cmd st i s h).1,
    (readStep_empty_crashes_frame reg cmd st i s h).2,
    fun hs => readStep_empty_crashes reg cmd st i s h hs, ?_, ?_⟩
  · exact readFoldFrom_insert_inert reg cmd (some s)
      (fun st' i' => (readStep_empty_crashes_frame reg cmd st' i' s h).1) l2 l1 0 _
  · exact (extractFoldFrom_insert_inert ereg ecmd (some s)
      (fun st' i' => by rw [extractStep_empty_crashes ereg ecmd st' i' s h]; exact ⟨rfl, rfl⟩)
      l2 l1 0 _).2

/-- Concrete fixture for the C10 witness: a decoded entry with no
    crashes. -/
def entryNoCrashes : SubmissionEntry :=
  { crashes := [], patches := [], bundles := [], patch_idx := 0, stop := false }

theorem empty_crashes_record_skipped_witness :
    extractStep exRegistry {} { vulnCounter := [], vulns := [], errors := [] }
        (0, some entryNoCrashes) = { vulnCounter := [], vulns := [], errors := [] } ∧
    readStep exRegistry exCmd { result := [], printed := [], errors := [] }
        (0, some entryNoCrashes) = { result := [], printed := [], errors := [0] } := by
  have h := empty_crashes_record_skipped exRegistry exCmd
    { result := [], printed := [], errors := [] } 0 exRegistry {}
    { vulnCounter := [], vulns := [], errors := [] } 0 entryNoCrashes [] [] (by decide)
  exact ⟨h.1, h.2.2.2.1 (by decide)⟩

/-- Claim C6: entries whose stop flag is set are excluded from active
    processing but stay readable — extract_povs always skips a stopped
    submission (extracting nothing for it), the read-submissions loop
    skips it exactly when filter_stop is set, and with filter_stop unset
    an otherwise processable stopped entry is still read and reported
    (printed and tallied, with no error logged). -/
theorem stop_flag_filtering (ereg : TaskLookup) (ecmd : ExtractPovsSettings)
    (est : ExtractState) (j : Nat) (reg : TaskLookup) (cmd : ReadSubmissionsSettings)
    (st : ReadState) (i : Nat) (s : SubmissionEntry) (hs : s.stop = true) :
    extractStep ereg ecmd est (j, some s) = est ∧
    readStep reg { cmd with filter_stop := true } st (i, some s) = st ∧
    (∀ (c0 : CrashWithId) (task : TaskInfo),
      (viewOf { cmd with filter_stop := false } s).crashes.head? = some c0 →
      reg c0.crash.crash.target.task_id = some task →
      ¬(cmd.task_id ≠ "" ∧ c0.crash.crash.target.task_id ≠ cmd.task_id) →
      (hasPassedPatch (viewOf { cmd with filter_stop := false } s) = true →
        hasPassedCrash (viewOf { cmd with filter_stop := false } s) = true) →
      (readStep reg { cmd with filter_stop := false } st (i, some s)).printed =
          st.printed ++ [i] ∧
        (readStep reg { cmd with filter_stop := false } st (i, some s)).errors =
          st.errors) := by
  refine ⟨extractStep_stop ereg ecmd est j s hs, ?_, ?_⟩
  · apply readStep_stop_filtered
    rw [viewOf_stop]
    simp [hs]
  · intro c0 task hhead hreg hfilt hinv
    have hstop : (({ cmd with filter_stop := false } : ReadSubmissionsSettings).filter_stop &&
        (viewOf { cmd with filter_stop := false } s).stop) = false := by
      simp
    rw [readStep_processed reg { cmd with filter_stop := false } st i s c0 task hstop hhead
      hreg hfilt]
    have hcond : (hasPassedPatch (viewOf { cmd with filter_stop := false } s) &&
        !hasPassedCrash (viewOf { cmd with filter_stop := false } s)) = false := by
      cases hp : hasPassedPatch (viewOf { cmd with filter_stop := false } s)
      · simp
      · simp [hinv hp]
    constructor
    · rw [tallyEntry_printed, hcond]
      simp
    · rw [tallyEntry_errors, hcond]
      simp

/-- Concrete fixture for the C6 witness: a stopped entry with one PASSED
    crash. -/
def entryStopped : SubmissionEntry :=
  { crashes := [exCW "tok" "st" "tr" "pov-6" .PASSED],
    patches := [], bundles := [], patch_idx := 0, stop := true }

theorem stop_flag_filtering_witness :
    extractStep exRegistry {} { vulnCounter := [], vulns := [], errors := [] }
        (0, some entryStopped) = { vulnCounter := [], vulns := [], errors := [] } ∧
    readStep exRegistry { exCmd with filter_stop := true }
        { result := [], printed := [], errors := [] } (0, some entryStopped) =
      { result := [], printed := [], errors := [] } ∧
    (readStep exRegistry { exCmd with filter_stop := false }
        { result := [], printed := [], errors := [] } (0, some entryStopped)).printed =
      [] ++ [0] := by
  have h := stop_flag_filtering exRegistry {} { vulnCounter := [], vulns := [], errors := [] }
    0 exRegistry exCmd { result := [], printed := [], errors := [] } 0 entryStopped (by decide)
  refine ⟨h.1, h.2.1, ?_⟩
  exact (h.2.2 (exCW "tok" "st" "tr" "pov-6" .PASSED) exTask (by decide) (by decide)
    (by decide) (by decide)).1

/-- Claim C8: under the invariant that a PASSED patch only exists on an
    entry that also has a PASSED crash, the assertion in the
    read-submissions loop (c is not None when a PASSED patch is found)
    never fires for a processed entry: the record is printed and the
    per-record error branch is not taken. -/
theorem passed_patch_assert_safe (reg : TaskLookup) (cmd : ReadSubmissionsSettings)
    (st : ReadState) (i : Nat) (s : SubmissionEntry) (c0 : CrashWithId) (task : TaskInfo)
    (hstop : (cmd.filter_stop && (viewOf cmd s).stop) = false)
    (hhead : (viewOf cmd s).crashes.head? = some c0)
    (hreg : reg c0.crash.crash.target.task_id = some task)
    (hfilt : ¬(cmd.task_id ≠ "" ∧ c0.crash.crash.target.task_id ≠ cmd.task_id))
    (hinv : hasPassedPatch (viewOf cmd s) = true → hasPassedCrash (viewOf cmd s) = true) :
    (readStep reg cmd st (i, some s)).errors = st.errors ∧
    (readStep reg cmd st (i, some s)).printed = st.printed ++ [i] := by
  rw [readStep_processed reg cmd st i s c0 task hstop hhead hreg hfilt]
  have hcond : (hasPassedPatch (viewOf cmd s) && !hasPassedCrash (viewOf cmd s)) = false := by
    cases hp : hasPassedPatch (viewOf cmd s)
    · simp
    · simp [hinv hp]
  constructor
  · rw [tallyEntry_errors, hcond]
    simp
  · rw [tallyEntry_printed, hcond]
    simp

/-- Concrete fixture for the C8 witness: a PASSED crash with a PASSED
    non-empty patch, satisfying the patch-unlock invariant. -/
def entryPatched : SubmissionEntry :=
  { crashes := [exCW "tok" "st" "tr" "pov-8" .PASSED],
    patches := [{ internal_patch_id := "p1", competition_patch_id := "c1",
                  patch := "diff-a", result := .PASSED }],
    bundles := [], patch_idx := 0, stop := false }

theorem passed_patch_assert_safe_witness :
    (readStep exRegistry exCmd { result := [], printed := [], errors := [] }
        (0, some entryPatched)).errors = [] ∧
    (readStep exRegistry exCmd { result := [], printed := [], errors := [] }
        (0, some entryPatched)).printed = [] ++ [0] := by
  exact passed_patch_assert_safe exRegistry exCmd { result := [], printed := [], errors := [] }
    0 entryPatched (exCW "tok" "st" "tr" "pov-8" .PASSED) exTask (by decide) (by decide)
    (by decide) (by decide) (by decide)

/-- Concrete fixture for the C1 counterexample: an entry whose only patch
    is a placeholder (empty diff) that nevertheless carries a PASSED
    verdict, together with a PASSED crash. -/
def entryEmptyPatchPassed : SubmissionEntry :=
  { crashes := [exCW "tok" "st" "tr" "pov-1" .PASSED],
    patches := [{ internal_patch_id := "p1", competition_patch_id := "c1",
                  patch := "", result := .PASSED }],
    bundles := [], patch_idx := 0, stop := false }

/-- Counterexample to claim C1 as stated: every patch of this stored
    entry has empty diff text (a placeholder reservation), yet the
    read_submissions per-task patch count for its task is 1, not 0 — the
    read path counts entries by PASSED patch result and never inspects
    the diff text, so a placeholder is not excluded from that count. -/
theorem placeholder_patch_count_counterexample :
    (∀ pe ∈ entryEmptyPatchPassed.patches, pe.patch = "") ∧
    (lookupTask (read_submissions exRegistry exCmd [some entryEmptyPatchPassed]).result
        "task1").map TaskResult.n_patches = some 1 := by
  decide

/-- Claim C1 as amended: patch entries with empty diff text are excluded
    from the export and its counts — for a submission extract_povs
    processes, the patch files written are exactly the non-empty diffs in
    order and the num_patches metadata is the number of non-empty
    patches — while the read_submissions per-task patch count counts
    entries having a patch with result PASSED, irrespective of diff
    text (so a placeholder is excluded there only while its result is
    not PASSED). -/
theorem placeholder_patch_exclusion_amended
    (ereg : TaskLookup) (ecmd : ExtractPovsSettings) (est : ExtractState) (j : Nat)
    (s : SubmissionEntry) (c0 : CrashWithId)
    (hstop : s.stop = false) (hhead : s.crashes.head? = some c0)
    (hfilt : ¬(ecmd.task_id ≠ "" ∧ c0.crash.crash.target.task_id ≠ ecmd.task_id))
    (hpass : (ecmd.passed_only && !hasPassedCrash s) = false)
    (reg : TaskLookup) (cmd : ReadSubmissionsSettings) (st : ReadState) (i : Nat)
    (s2 : SubmissionEntry) (c2 : CrashWithId) (task : TaskInfo)
    (hstop2 : (cmd.filter_stop && (viewOf cmd s2).stop) = false)
    (hhead2 : (viewOf cmd s2).crashes.head? = some c2)
    (hreg2 : reg c2.crash.crash.target.task_id = some task)
    (hfilt2 : ¬(cmd.task_id ≠ "" ∧ c2.crash.crash.target.task_id ≠ cmd.task_id)) :
    (∃ v, (extractStep ereg ecmd est (j, some s)).vulns = est.vulns ++ [v] ∧
      v.patchFiles.map Prod.snd =
        (s.patches.filter (fun pe => pe.patch ≠ "")).map (fun pe => pe.patch) ∧
      v.meta.num_patches = (s.patches.filter (fun pe => pe.patch ≠ "")).length) ∧
    (∃ tr, lookupTask (readStep reg cmd st (i, some s2)).result
        c2.crash.crash.target.task_id = some tr ∧
      tr.n_patches =
        ((lookupTask st.result c2.crash.crash.target.task_id).getD
            (freshTaskResult c2.crash.crash.target.task_id task)).n_patches +
          (if hasPassedPatch (viewOf cmd s2) then 1 else 0)) := by
  constructor
  · rw [extractStep_processed ereg ecmd est j s c0 hstop hhead hfilt hpass]
    refine ⟨_, rfl, ?_, ?_⟩
    · exact (extractPatchFiles_spec s.patches).2
    · exact (extractPatchFiles_spec s.patches).1
  · rw [readStep_processed reg cmd st i s2 c2 task hstop2 hhead2 hreg2 hfilt2]
    exact ⟨_, lookupTask_tallyEntry_self st i c2.crash.crash.target.task_id task
      (viewOf cmd s2), rfl⟩

/-- Concrete fixture for the C1 amended witness: one placeholder patch
    and one real patch. -/
def entryMixedPatches : SubmissionEntry :=
  { crashes := [exCW "tok" "st" "tr" "pov-m" .PASSED],
    patches := [{ internal_patch_id := "p1", competition_patch_id := "c1",
                  patch := "", result := .NONE },
                { internal_patch_id := "p2", competition_patch_id := "c2",
                  patch := "diff-a", result := .NONE }],
    bundles := [], patch_idx := 0, stop := false }

theorem placeholder_patch_exclusion_amended_witness :
    (∃ v, (extractStep exRegistry {} { vulnCounter := [], vulns := [], errors := [] }
        (0, some entryMixedPatches)).vulns = [v] ∧
      v.patchFiles.map Prod.snd = ["diff-a"] ∧
      v.meta.num_patches = 1) ∧
    (∃ tr, lookupTask (readStep exRegistry exCmd { result := [], printed := [], errors := [] }
        (0, some entryEmptyPatchPassed)).result
        (exCW "tok" "st" "tr" "pov-1" .PASSED).crash.crash.target.task_id = some tr ∧
      tr.n_patches = 1) := by
  obtain ⟨⟨v, hv1, hv2, hv3⟩, ⟨tr, ht1, ht2⟩⟩ := placeholder_patch_exclusion_amended
    exRegistry {} { vulnCounter := [], vulns := [], errors := [] } 0 entryMixedPatches
    (exCW "tok" "st" "tr" "pov-m" .PASSED) (by decide) (by decide) (by decide) (by decide)
    exRegistry exCmd { result := [], printed := [], errors := [] } 0 entryEmptyPatchPassed
    (exCW "tok" "st" "tr" "pov-1" .PASSED) exTask (by decide) (by decide) (by decide)
    (by decide)
  constructor
  · refine ⟨v, by simpa using hv1, ?_, ?_⟩
    · rw [hv2]
      decide
    · rw [hv3]
      decide
  · refine ⟨tr, ht1, ?_⟩
    rw [ht2]
    decide
